import Mathlib

/-!
# Verification of the planner heuristics of schedura_smart.scheduler

Shallow embedding of the algorithmic core of the repository:

* `src/utils/data_manager.py` — `check_in_habit` (streak tracking);
* `src/utils/task_classifier.py` — `estimate_task_parameters` (keyword tier
  scans), `suggest_time_slot`, `estimate_task_duration`, `get_next_tasks`.

Modelling conventions:

* ISO date strings (`"YYYY-MM-DD"`) are modelled as `Nat` day numbers: string
  comparison of ISO dates, `datetime.fromisoformat` followed by `.date()`, and
  `(d2 - d1).days` all agree with the corresponding `Nat` order and subtraction.
* `datetime` values are modelled as `Nat` minutes since an epoch; a calendar
  day `d` starts at minute `d * 1440`.
* Python dicts with documented optional keys become structures with `Option`
  fields; `dict.get(k, default)` becomes `Option.getD`.
* Mutation of `st.session_state` collections becomes explicit state passing:
  a function that mutates a list returns the updated list.  In-place mutation
  of a dict that is aliased from a list slot updates that slot.
* A Python statement that raises is modelled by an explicit error result
  carrying the state at the moment the exception escapes.
-/

/-- A habit record, as stored in `st.session_state["habits"]`
(`src/utils/data_manager.py`, `add_habit`).  Only the fields read or written
by `check_in_habit` are carried; `id` models the uuid string (only compared
for equality), `check_ins` models the list of ISO date strings as day
numbers.  A missing `check_ins` key behaves exactly as `[]` and a missing
`best_streak` key as `0` in `check_in_habit`, so the total fields model the
optional keys faithfully. -/
structure Habit where
  id : Nat
  check_ins : List Nat
  current_streak : Nat
  best_streak : Nat
deriving DecidableEq

/-- Result of a `check_in_habit` call: normal return value, or the
`IndexError` escaping from `st.session_state["habits"][i] = habit` when `i`
is out of range. -/
inductive CheckInResult where
  | ok (b : Bool)
  | indexError
deriving DecidableEq

/-- Insert a day number into an ascending list, keeping it ascending
(helper for `sortDates`). -/
def insertAsc (x : Nat) : List Nat → List Nat
  | [] => [x]
  | y :: ys => if x ≤ y then x :: y :: ys else y :: insertAsc x ys

/-- Model of Python `sorted` on a list of dates
(`sorted([datetime.fromisoformat(d) for d in habit["check_ins"]])` at
`src/utils/data_manager.py:245`): ascending insertion sort.  On `Nat` (a
linear order) every correct sort produces the same list, so this models
Python's sort exactly. -/
def sortDates (l : List Nat) : List Nat := l.foldr insertAsc []

/-- The backward streak walk of `check_in_habit`
(`src/utils/data_manager.py:255-263`), operating on the reversed sorted
check-in list `[most_recent, next, ...]`.  Arguments: current streak,
current loop index `i`, remaining reversed list.  Returns the final
`current_streak` and the final value of the (shadowed) loop variable `i`:
on a `break` at index `i` the result is `i`; when the loop exhausts
`range(1, n)` the last executed index is `n - 1`, which is `i - 1` at the
point where fewer than two dates remain.  Callers only invoke this with at
least two dates, so the loop body runs at least once. -/
def streakGo : Nat → Nat → List Nat → Nat × Nat
  | streak, i, curr :: prev :: rest =>
      if curr - prev = 1 then streakGo (streak + 1) (i + 1) (prev :: rest)
      else (streak, i)
  | streak, i, _ => (streak, i - 1)

/-- The guarded backward walk of `check_in_habit`
(`src/utils/data_manager.py:251-263`) on the reversed sorted check-in list
`r`: the loop runs only when the most recent date equals the new date `d`
and there are at least two check-ins (`range(1, 1)` is empty).  Returns
the computed `current_streak` together with the final value of the inner
loop variable `i` when the loop body ran (`none` when it did not run, in
which case `i` still holds the outer enumerate index). -/
def streak_walk (r : List Nat) (d : Nat) : Nat × Option Nat :=
  match r with
  | curr :: prev :: rest =>
      if curr = d then
        let q := streakGo 1 1 (curr :: prev :: rest)
        (q.1, some q.2)
      else (1, none)
  | _ => (1, none)

/-- The full per-habit mutation of `check_in_habit` once the habit has been
located and the date is known fresh (`src/utils/data_manager.py:238-267`):
append the date, sort, run `streak_walk` on the reversed sorted list, and
set the streak fields (`best_streak = max(max(best, 1), current)`). -/
def update_habit (h : Habit) (d : Nat) : Habit × Option Nat :=
  let cs := h.check_ins ++ [d]
  let walk := streak_walk ((sortDates cs).reverse) d
  ({ h with
      check_ins := cs
      current_streak := walk.1
      best_streak := max (max h.best_streak 1) walk.1 }, walk.2)

/-- The `for i, habit in enumerate(st.session_state["habits"])` search of
`check_in_habit` (`src/utils/data_manager.py:232-233`): the index and value
of the first habit whose `id` matches, counting from `i`. -/
def locate_habit (hid : Nat) : List Habit → Nat → Option (Nat × Habit)
  | [], _ => none
  | h :: t, i => if h.id == hid then some (i, h) else locate_habit hid t (i + 1)

/-- Function `check_in_habit(habit_id, date)` from `src/utils/data_manager.py:224-278`
as a function from the habit list (the `st.session_state["habits"]` state)
to the updated habit list and the call's result.

The Python loop finds the first habit whose `id` matches; if the date is
already recorded it returns `False` without mutation; otherwise it mutates
the habit dict in place (modelled by updating its slot `j`) and then
executes `st.session_state["habits"][i] = habit`.  Because the inner streak
loop reuses the variable `i`, that final index is the inner loop's last
value whenever the loop body ran: the assignment writes the habit at that
index when it is in range (possibly overwriting another habit's slot) and
raises `IndexError` otherwise. -/
def check_in_habit (habits : List Habit) (hid : Nat) (d : Nat) :
    List Habit × CheckInResult :=
  match locate_habit hid habits 0 with
  | none => (habits, CheckInResult.ok false)
  | some (j, h) =>
    if d ∈ h.check_ins then (habits, CheckInResult.ok false)
    else
      let u := update_habit h d
      let iFinal := u.2.getD j
      let st := habits.set j u.1
      if iFinal < habits.length then (st.set iFinal u.1, CheckInResult.ok true)
      else (st, CheckInResult.indexError)

/-- A task record (`src/utils/data_manager.py`, `add_task`).  Only the
fields read by the classifier functions are carried; optional keys
(`completed`, `importance`, `urgency`, `priority_score`) are `Option`
fields accessed through the same defaults as the Python `dict.get` calls.
`priority_score` is absent until `get_next_tasks` writes it. -/
structure TaskRec where
  title : String
  description : String
  completed : Option Bool
  importance : Option Nat
  urgency : Option Nat
  priority_score : Option Nat
deriving DecidableEq

/-- The in-place mutation `task["priority_score"] = importance * urgency`
performed by `get_next_tasks` (`src/utils/task_classifier.py:268-271`) on
each incomplete task, with `importance`/`urgency` defaulting to 3. -/
def set_priority_score (t : TaskRec) : TaskRec :=
  { t with priority_score := some ((t.importance.getD 3) * (t.urgency.getD 3)) }

/-- Insert a task into a list that is sorted descending by `key`, placing
it before the first element of smaller-or-equal key (helper for
`sortByKeyDesc`). -/
def insertDesc (key : TaskRec → Nat) (x : TaskRec) : List TaskRec → List TaskRec
  | [] => [x]
  | y :: ys => if key y ≤ key x then x :: y :: ys else y :: insertDesc key x ys

/-- Model of Python `sorted(l, key=key, reverse=True)`
(`src/utils/task_classifier.py:274`): stable descending sort.  `foldr
insertDesc` inserts earlier elements into the sorted tail, placing an
element before every element of equal key that followed it, which is
exactly the stable descending order Python's sort produces. -/
def sortByKeyDesc (key : TaskRec → Nat) (l : List TaskRec) : List TaskRec :=
  l.foldr (insertDesc key) []

/-- Function `get_next_tasks(tasks, top_n)` from `src/utils/task_classifier.py:259-277`.
Returns the list the function returns together with the caller's task list
after the call (the function mutates the incomplete tasks' dicts in place,
which are aliased from the caller's list).  An empty input returns `[]` at
once.  Otherwise: filter to incomplete tasks, write `priority_score` into
each of them, sort descending by `x.get("priority_score", 0)` and take the
first `top_n`. -/
def get_next_tasks (tasks : List TaskRec) (top_n : Nat) : List TaskRec × List TaskRec :=
  if tasks.isEmpty then ([], tasks)
  else
    let incomplete := tasks.filter (fun t => ! t.completed.getD false)
    let scored := incomplete.map set_priority_score
    let callerAfter :=
      tasks.map (fun t => if t.completed.getD false then t else set_priority_score t)
    ((sortByKeyDesc (fun t => t.priority_score.getD 0) scored).take top_n, callerAfter)

/-- Function `estimate_task_duration(task)` from `src/utils/task_classifier.py:228-257`:
base 60 minutes, 90 when importance ≥ 4 or urgency ≥ 4, 30 when both ≤ 2;
±30/−15 adjustments for title and description lengths; minimum 15.  All
intermediate values stay ≥ 15, so `Nat` subtraction is exact. -/
def estimate_task_duration (task : TaskRec) : Nat :=
  let importance := task.importance.getD 3
  let urgency := task.urgency.getD 3
  let duration : Nat :=
    if importance ≥ 4 ∨ urgency ≥ 4 then 90
    else if importance ≤ 2 ∧ urgency ≤ 2 then 30
    else 60
  let title_length := task.title.length
  let duration :=
    if title_length > 50 then duration + 30
    else if title_length < 20 then duration - 15
    else duration
  let description_length := task.description.length
  let duration := if description_length > 200 then duration + 30 else duration
  max 15 duration

/-- The user profile dict when it is non-empty (a `None` or empty profile
is falsy in Python and is modelled by `none` at the call sites of
`suggest_time_slot`).  `productivity_peak` is optional and defaults to
`"Morning"` via `user_profile.get("productivity_peak", "Morning")`. -/
structure UserProfile where
  productivity_peak : Option String
deriving DecidableEq

/-- A calendar event as consumed by `suggest_time_slot`: the results of
`datetime.fromisoformat` on its `start_time` and `end_time` strings, in
minutes since the epoch; `none` models a string whose parse raises
(`ValueError`/`TypeError`), which the code skips. -/
structure Event where
  start_parsed : Option Nat
  end_parsed : Option Nat
deriving DecidableEq

/-- The `try`-block of `suggest_time_slot`
(`src/utils/task_classifier.py:184-190`): an event contributes a period
only when both its endpoints parse; a failure of either skips the event. -/
def event_period (e : Event) : Option (Nat × Nat) :=
  match e.start_parsed, e.end_parsed with
  | some s, some t => some (s, t)
  | _, _ => none

/-- The start of a would-be or actual slot: day number and hour, in minutes
since the epoch (`datetime.combine(date, datetime.min.time()) +
timedelta(hours=hour)`). -/
def slot_start (day hour : Nat) : Nat := day * 1440 + hour * 60

/-- The conflict test of `suggest_time_slot`
(`src/utils/task_classifier.py:202-203`): a candidate `[ps, pe)` conflicts
with a period `[s, e)` iff `s <= ps < e` or `s < pe <= e`. -/
def slot_conflicts (periods : List (Nat × Nat)) (ps pe : Nat) : Bool :=
  periods.any fun q => (decide (q.1 ≤ ps) && decide (ps < q.2))
    || (decide (q.1 < pe) && decide (pe ≤ q.2))

/-- The 7-day search loop of `suggest_time_slot`
(`src/utils/task_classifier.py:196-207`): for each of `n` days starting at
`date`, scan the preferred hours in order and return the first 60-minute
slot that conflicts with no period; `none` when every candidate conflicts. -/
def find_slot (periods : List (Nat × Nat)) (pref : List Nat) (date : Nat) :
    Nat → Option Nat
  | 0 => none
  | n + 1 =>
    match pref.find? (fun h =>
        ! slot_conflicts periods (slot_start date h) (slot_start date h + 60)) with
    | some h => some (slot_start date h)
    | none => find_slot periods pref (date + 1) n

/-- The `peak_hours` dict lookup with default
(`src/utils/task_classifier.py:169-177`):
`peak_hours.get(productivity_peak, range(9, 17))` as a list of hours. -/
def peak_hours_for (p : String) : List Nat :=
  if p = "Morning" then List.range' 8 4
  else if p = "Afternoon" then List.range' 12 5
  else if p = "Evening" then List.range' 17 5
  else if p = "Night" then List.range' 20 4
  else List.range' 9 8

/-- The start value returned by `suggest_time_slot`: the bare `int` hour
`start_hour = 9` of the missing-profile early return
(`src/utils/task_classifier.py:159-163`), or a `datetime` (in minutes). -/
inductive SlotStart where
  | hourOnly (h : Nat)
  | time (t : Nat)
deriving DecidableEq

/-- Function `suggest_time_slot(task, user_profile, existing_events)` from
`src/utils/task_classifier.py:157-226`.  `profile = none` models a falsy
`user_profile` (`None` or `{}`); `events = []` models a falsy
`existing_events`.  `today` is `datetime.now().date()` as a day number and
`hour_now` is `datetime.now().hour`.  With a falsy profile the function
returns the pair `(9, 60)` immediately.  Otherwise it resolves the
preferred hours; with events it runs the 7-day conflict search starting
tomorrow, falling back to tomorrow at `preferred_hours[0]`; with no events
it suggests today (or tomorrow, when the hour has passed) at the first
preferred hour with `estimate_task_duration`.  `preferred_hours` is never
empty (every branch of `peak_hours_for` is non-empty), so the `headD`
defaults are never exercised. -/
def suggest_time_slot (task : TaskRec) (profile : Option UserProfile)
    (events : List Event) (today hour_now : Nat) : SlotStart × Nat :=
  match profile with
  | none => (SlotStart.hourOnly 9, 60)
  | some p =>
    let peak := p.productivity_peak.getD "Morning"
    let preferred := peak_hours_for peak
    if events.isEmpty then
      let preferred_hour := preferred.headD 9
      let date := if hour_now ≥ preferred_hour then today + 1 else today
      (SlotStart.time (slot_start date preferred_hour), estimate_task_duration task)
    else
      let periods := events.filterMap event_period
      match find_slot periods preferred (today + 1) 7 with
      | some t => (SlotStart.time t, 60)
      | none => (SlotStart.time (slot_start (today + 1) (preferred.headD 0)), 60)

/-- Does the character list `pat` occur as an initial run of `text`
(helper for `containsSub`)? -/
def leadsWith : List Char → List Char → Bool
  | [], _ => true
  | _ :: _, [] => false
  | a :: as, b :: bs => a == b && leadsWith as bs

/-- Model of the Python substring test `pat in text` on strings: `pat`
occurs contiguously somewhere in `text`. -/
def containsSub (text pat : List Char) : Bool :=
  leadsWith pat text ||
    match text with
    | [] => false
    | _ :: rest => containsSub rest pat

/-- The text scanned by `estimate_task_parameters`
(`src/utils/task_classifier.py:95`):
`f"{task_title} {task_description}".lower()`, as a character list
(Python `str.lower()` lower-cases each character). -/
def scan_text (title description : String) : List Char :=
  ((title ++ " " ++ description).data).map Char.toLower

/-- Does any keyword of the tier occur in the text
(the inner `for keyword in keywords` loop)? -/
def any_keyword (text : List Char) (kws : List String) : Bool :=
  kws.any fun k => containsSub text k.data

/-- The three-tier keyword scan of `estimate_task_parameters`
(`src/utils/task_classifier.py:111-139`), translated statement by
statement from the Python loop: the score starts at 3; the `high` tier
sets it to 5, the `medium` tier to 3, the `low` tier to 1, each on its
first keyword hit; after each tier the loop breaks only when the score
differs from 3 — so a `medium` hit (score 3) does not stop the scan and a
later `low` hit still overwrites it. -/
def tier_scan (text : List Char) (high med low : List String) : Nat :=
  let v1 := if any_keyword text high then 5 else 3
  if v1 ≠ 3 then v1
  else
    let v2 := if any_keyword text med then 3 else v1
    if v2 ≠ 3 then v2
    else if any_keyword text low then 1 else v2

/-- The `importance_keywords` tiers of `estimate_task_parameters`
(`src/utils/task_classifier.py:98-102`). -/
def importance_keywords : List String × List String × List String :=
  (["important", "critical", "crucial", "essential", "key", "major",
    "significant", "vital", "priority"],
   ["necessary", "needed", "required", "should", "useful"],
   ["optional", "minor", "trivial", "if time", "sometime", "eventually",
    "when possible"])

/-- The `urgency_keywords` tiers of `estimate_task_parameters`
(`src/utils/task_classifier.py:105-109`). -/
def urgency_keywords : List String × List String × List String :=
  (["urgent", "asap", "immediately", "now", "today", "tonight", "deadline",
    "due", "overdue", "soon", "quickly", "fast"],
   ["this week", "next few days", "tomorrow", "upcoming"],
   ["when convenient", "sometime", "later", "eventually", "no rush",
    "take time", "next month"])

/-- The importance scan of `estimate_task_parameters`
(`src/utils/task_classifier.py:111-124`). -/
def importance_scan (text : List Char) : Nat :=
  tier_scan text importance_keywords.1 importance_keywords.2.1 importance_keywords.2.2

/-- The urgency scan of `estimate_task_parameters`
(`src/utils/task_classifier.py:126-139`), before the date-pattern
adjustment. -/
def urgency_scan (text : List Char) : Nat :=
  tier_scan text urgency_keywords.1 urgency_keywords.2.1 urgency_keywords.2.2

/-- The candidate slot starts of the 7-day search of `suggest_time_slot`,
in scan order: for each of `n` days starting at `date`, the preferred
hours in order. -/
def slot_candidates (pref : List Nat) (date : Nat) : Nat → List Nat
  | 0 => []
  | n + 1 => pref.map (slot_start date) ++ slot_candidates pref (date + 1) n

/-- Statement of the spec's contract for the event-branch of
`suggest_time_slot` (used to state C9): the result is the first candidate
slot (in scan order) that conflicts with no event period, as a 60-minute
slot, or the fixed fallback when every candidate conflicts. -/
def first_free_or_fallback (periods : List (Nat × Nat)) (cands : List Nat)
    (fallback : Nat) (result : SlotStart × Nat) : Prop :=
  (∃ i t, cands.get? i = some t
      ∧ slot_conflicts periods t (t + 60) = false
      ∧ (∀ k u, k < i → cands.get? k = some u → slot_conflicts periods u (u + 60) = true)
      ∧ result = (SlotStart.time t, 60))
  ∨ ((∀ t ∈ cands, slot_conflicts periods t (t + 60) = true)
      ∧ result = (SlotStart.time fallback, 60))

section HelperLemmas

/-- A located habit's index is in bounds (relative to the start index). -/
theorem locate_habit_lt {hid : Nat} :
    ∀ (l : List Habit) (i j : Nat) (h : Habit),
      locate_habit hid l i = some (j, h) → i ≤ j ∧ j < i + l.length := by
  intro l
  induction l with
  | nil => intro i j h hl; simp [locate_habit] at hl
  | cons x t ih =>
    intro i j h hl
    by_cases hx : x.id = hid
    · simp [locate_habit, hx] at hl
      simp only [List.length_cons]
      omega
    · simp [locate_habit, hx] at hl
      have := ih (i + 1) j h hl
      simp only [List.length_cons]
      omega

/-- Setting a slot and reading it back. -/
theorem get?_set_same {α : Type} :
    ∀ (l : List α) (i : Nat) (a : α), i < l.length → (l.set i a).get? i = some a := by
  intro l
  induction l with
  | nil => intro i a h; simp at h
  | cons x t ih =>
    intro i a h
    cases i with
    | zero => rfl
    | succ n =>
      simp only [List.set_cons_succ, List.get?_cons_succ]
      exact ih n a (by simpa using h)

/-- Setting one slot leaves the others unchanged. -/
theorem get?_set_diff {α : Type} :
    ∀ (l : List α) (i j : Nat) (a : α), i ≠ j → (l.set i a).get? j = l.get? j := by
  intro l
  induction l with
  | nil => intro i j a _; simp
  | cons x t ih =>
    intro i j a hij
    cases i with
    | zero =>
      cases j with
      | zero => exact absurd rfl hij
      | succ m => rfl
    | succ n =>
      cases j with
      | zero => rfl
      | succ m =>
        simp only [List.set_cons_succ, List.get?_cons_succ]
        exact ih n m a (fun he => hij (by rw [he]))

/-- The streak counter of the backward walk never drops below its
starting value. -/
theorem streakGo_fst_ge : ∀ (l : List Nat) (s i : Nat), s ≤ (streakGo s i l).1 := by
  intro l
  induction l with
  | nil => intro s i; simp [streakGo]
  | cons x t ih =>
    intro s i
    cases t with
    | nil => simp [streakGo]
    | cons y r =>
      simp only [streakGo]
      split
      · exact Nat.le_trans (Nat.le_succ s) (ih (s + 1) (i + 1))
      · exact Nat.le_refl s

/-- The streak computed by the guarded walk is at least 1. -/
theorem streak_walk_fst_ge_one (r : List Nat) (d : Nat) : 1 ≤ (streak_walk r d).1 := by
  rcases r with _ | ⟨c, _ | ⟨p, t⟩⟩
  · simp [streak_walk]
  · simp [streak_walk]
  · rw [streak_walk]
    split
    · exact streakGo_fst_ge (c :: p :: t) 1 1
    · simp

/-- The streak computed by `update_habit` is at least 1. -/
theorem update_habit_current_ge_one (h : Habit) (d : Nat) :
    1 ≤ (update_habit h d).1.current_streak :=
  streak_walk_fst_ge_one ((sortDates (h.check_ins ++ [d])).reverse) d

/-- The `best_streak` written by `update_habit`, in closed form. -/
theorem update_habit_best_eq (h : Habit) (d : Nat) :
    (update_habit h d).1.best_streak
      = max (max h.best_streak 1) (update_habit h d).1.current_streak := rfl

end HelperLemmas

/-- C2 (code bug): the spec says `check_in_habit` is total — it always
returns normally with `True` or `False`.  The code is not: for the habit
list `[{id 0, check_ins ["day 10"], current_streak 1, best_streak 1}]` and
the fresh consecutive date `day 11`, the inner streak loop runs once and
leaves the shadowed loop variable `i = 1`, so
`st.session_state["habits"][i] = habit` is an assignment at index 1 of a
one-element list and raises `IndexError` — after the habit dict itself has
already been mutated in place to streaks 2/2.  The write-back at the
enumerate index was clearly intended (every other `update_*` function in
`data_manager.py` does exactly that with an unshadowed `i`), so this is a
bug in the code, not in the spec. -/
theorem C2_code_bug_eval :
    check_in_habit [⟨0, [10], 1, 1⟩] 0 11
      = ([⟨0, [10, 11], 2, 2⟩], CheckInResult.indexError) := by decide

/-- C3 (code bug): the spec says `check_in_habit` mutates only the habit
identified by `habit_id`.  For the habit list `[target, other]` with
`target = {id 0, check_ins [10], 1, 1}` and `other = {id 1, [], 0, 0}`,
checking in the fresh consecutive date 11 on habit 0 succeeds (returns
`True`) but the shadowed loop variable makes the final write-back land at
index 1, replacing `other`'s slot with the updated `target` record: the
second habit's entry is changed by a call that addressed the first. -/
theorem C3_code_bug_eval :
    check_in_habit [⟨0, [10], 1, 1⟩, ⟨1, [], 0, 0⟩] 0 11
        = ([⟨0, [10, 11], 2, 2⟩, ⟨0, [10, 11], 2, 2⟩], CheckInResult.ok true)
      ∧ ((check_in_habit [⟨0, [10], 1, 1⟩, ⟨1, [], 0, 0⟩] 0 11).1.get? 1
        ≠ some ⟨1, [], 0, 0⟩) := by decide

/-- C7 (confirmed): calling `check_in_habit` with a date already present in
the located habit's `check_ins` returns failure (`False`) and leaves the
entire habit list — and in particular that habit's `check_ins`,
`current_streak` and `best_streak` — unchanged. -/
theorem C7_duplicate_checkin_noop (habits : List Habit) (hid d j : Nat) (h : Habit)
    (hloc : locate_habit hid habits 0 = some (j, h)) (hdup : d ∈ h.check_ins) :
    check_in_habit habits hid d = (habits, CheckInResult.ok false) := by
  unfold check_in_habit
  rw [hloc]
  simp [hdup]

/-- Witness for C7 at a concrete input: habit 0 already checked in on
day 5; checking in day 5 again fails and changes nothing. -/
theorem C7_duplicate_checkin_noop_witness :
    (5 ∈ (Habit.mk 0 [5] 1 1).check_ins)
      ∧ check_in_habit [⟨0, [5], 1, 1⟩] 0 5 = ([⟨0, [5], 1, 1⟩], CheckInResult.ok false) :=
  ⟨by decide, C7_duplicate_checkin_noop [⟨0, [5], 1, 1⟩] 0 5 0 ⟨0, [5], 1, 1⟩
    (by decide) (by decide)⟩

/-- C8 (confirmed): after every successful `check_in_habit` call the
updated habit (still found at its index in the updated list, even when the
misdirected write-back also copied it elsewhere) satisfies
`current_streak ≤ best_streak`; its new `best_streak` is the maximum of
the previous `best_streak` and the new `current_streak`, never decreases,
and is at least 1. -/
theorem C8_streak_invariant (habits : List Habit) (hid d : Nat) (habits' : List Habit)
    (hcall : check_in_habit habits hid d = (habits', CheckInResult.ok true)) :
    ∃ j h, locate_habit hid habits 0 = some (j, h)
      ∧ habits'.get? j = some (update_habit h d).1
      ∧ (update_habit h d).1.current_streak ≤ (update_habit h d).1.best_streak
      ∧ (update_habit h d).1.best_streak
          = max h.best_streak (update_habit h d).1.current_streak
      ∧ h.best_streak ≤ (update_habit h d).1.best_streak
      ∧ 1 ≤ (update_habit h d).1.best_streak := by
  rcases hloc : locate_habit hid habits 0 with _ | ⟨j, h⟩
  · rw [check_in_habit, hloc] at hcall
    simp at hcall
  · rw [check_in_habit, hloc] at hcall
    by_cases hdup : d ∈ h.check_ins
    · simp [hdup] at hcall
    · simp only [hdup, if_false] at hcall
      split at hcall
      next hin =>
        have hj : j < habits.length := by
          have := locate_habit_lt habits 0 j h hloc
          omega
        have hl : habits' = (habits.set j (update_habit h d).1).set
            ((update_habit h d).2.getD j) (update_habit h d).1 := by
          exact (Prod.ext_iff.mp hcall).1.symm
        have hget : habits'.get? j = some (update_habit h d).1 := by
          rw [hl]
          by_cases hij : (update_habit h d).2.getD j = j
          · rw [hij]
            exact get?_set_same _ j _ (by simpa using hj)
          · rw [get?_set_diff _ _ _ _ hij]
            exact get?_set_same _ j _ hj
        have hcur := update_habit_current_ge_one h d
        have hbest := update_habit_best_eq h d
        refine ⟨j, h, rfl, hget, ?_, ?_, ?_, ?_⟩
        · rw [hbest]; exact Nat.le_max_right _ _
        · rw [hbest]
          rcases Nat.le_total h.best_streak 1 with hb | hb
          · rw [Nat.max_eq_right hb]
            rw [Nat.max_eq_right hcur, Nat.max_eq_right (Nat.le_trans hb hcur)]
          · rw [Nat.max_eq_left hb]
        · rw [hbest]
          exact Nat.le_trans (Nat.le_max_left _ _) (Nat.le_max_left _ _)
        · rw [hbest]
          exact Nat.le_trans (Nat.le_max_right _ _) (Nat.le_max_left _ _)
      next =>
        simp at hcall

/-- Witness for C8 at a concrete input: a first-ever check-in, which
succeeds (the streak loop body does not run, so the write-back index is
the correct one). -/
theorem C8_streak_invariant_witness :
    ∃ j h, locate_habit 0 [⟨0, [], 0, 0⟩] 0 = some (j, h)
      ∧ [⟨0, [7], 1, 1⟩].get? j = some (update_habit h 7).1
      ∧ (update_habit h 7).1.current_streak ≤ (update_habit h 7).1.best_streak
      ∧ (update_habit h 7).1.best_streak
          = max h.best_streak (update_habit h 7).1.current_streak
      ∧ h.best_streak ≤ (update_habit h 7).1.best_streak
      ∧ 1 ≤ (update_habit h 7).1.best_streak :=
  C8_streak_invariant [⟨0, [], 0, 0⟩] 0 7 [⟨0, [7], 1, 1⟩] (by decide)

/-- C1 (counterexample): the claim fails for the insertion order
`D, D+2, D+1`.  With `D = 10`, checking habit 0 in on days 10, then 12,
then 11 (each call completing normally — the habit list has three entries,
keeping the misdirected write-back in bounds), the habit ends with
`current_streak = 1` and `best_streak = 1`, not 3: the backward walk runs
only when the newly inserted date is the most recent one, and the last
call inserts day 11 while day 12 is already recorded. -/
theorem C1_counterexample :
    check_in_habit (check_in_habit (check_in_habit
        [⟨0, [], 0, 0⟩, ⟨1, [], 0, 0⟩, ⟨2, [], 0, 0⟩] 0 10).1 0 12).1 0 11
      = ([⟨0, [10, 12, 11], 1, 1⟩, ⟨0, [10, 12], 1, 1⟩, ⟨2, [], 0, 0⟩],
         CheckInResult.ok true)
    ∧ (Habit.mk 0 [10, 12, 11] 1 1).current_streak ≠ 3 := by decide

/-- C1 (amended): for a habit with no check-ins and `best_streak = 0`,
checked in on three consecutive days `D, D+1, D+2` in an insertion order
whose LAST call inserts `D+2` (the latest date), the habit ends with
`current_streak = 3` and `best_streak = 3`.  (The habit is stored together
with two other habits so that every call completes normally despite the
misdirected write-back; the habit's own entry is nevertheless exactly the
updated record.)  Orders whose last inserted date is not the latest one
leave `current_streak = 1` instead, as the counterexample shows. -/
theorem C1_amended_consecutive_streak (D : Nat) (A B : Habit) :
    ((check_in_habit (check_in_habit (check_in_habit
        [⟨0, [], 0, 0⟩, A, B] 0 D).1 0 (D + 1)).1 0 (D + 2)).1.get? 0
      = some ⟨0, [D, D + 1, D + 2], 3, 3⟩)
    ∧ ((check_in_habit (check_in_habit (check_in_habit
        [⟨0, [], 0, 0⟩, A, B] 0 (D + 1)).1 0 D).1 0 (D + 2)).1.get? 0
      = some ⟨0, [D + 1, D, D + 2], 3, 3⟩) := by
  have hle1 : D ≤ D + 1 := by omega
  have hle2 : D + 1 ≤ D + 2 := by omega
  have hle3 : D ≤ D + 2 := by omega
  have hnle : ¬ (D + 1 ≤ D) := by omega
  have hne1 : ¬ (D + 1 = D) := by omega
  have hne2 : ¬ (D + 2 = D) := by omega
  have hne3 : ¬ (D + 2 = D + 1) := by omega
  have hne4 : ¬ (D = D + 1) := by omega
  have hsub1 : D + 1 - D = 1 := by omega
  have hsub2 : D + 2 - (D + 1) = 1 := by omega
  constructor
  · have s1 : check_in_habit [⟨0, [], 0, 0⟩, A, B] 0 D
        = ([⟨0, [D], 1, 1⟩, A, B], CheckInResult.ok true) := by
      simp [check_in_habit, locate_habit, update_habit, streak_walk, sortDates,
        insertAsc, streakGo]
    have s2 : check_in_habit [⟨0, [D], 1, 1⟩, A, B] 0 (D + 1)
        = ([⟨0, [D, D + 1], 2, 2⟩, ⟨0, [D, D + 1], 2, 2⟩, B],
           CheckInResult.ok true) := by
      simp [check_in_habit, locate_habit, update_habit, streak_walk, sortDates,
        insertAsc, streakGo, hne1, hle1, hsub1]
    have s3 : check_in_habit [⟨0, [D, D + 1], 2, 2⟩, ⟨0, [D, D + 1], 2, 2⟩, B] 0 (D + 2)
        = ([⟨0, [D, D + 1, D + 2], 3, 3⟩, ⟨0, [D, D + 1], 2, 2⟩,
            ⟨0, [D, D + 1, D + 2], 3, 3⟩], CheckInResult.ok true) := by
      simp [check_in_habit, locate_habit, update_habit, streak_walk, sortDates,
        insertAsc, streakGo, hne2, hne3, hle1, hle2, hsub1, hsub2]
    rw [s1]
    simp only
    rw [s2]
    simp only
    rw [s3]
    rfl
  · have t1 : check_in_habit [⟨0, [], 0, 0⟩, A, B] 0 (D + 1)
        = ([⟨0, [D + 1], 1, 1⟩, A, B], CheckInResult.ok true) := by
      simp [check_in_habit, locate_habit, update_habit, streak_walk, sortDates,
        insertAsc, streakGo]
    have t2 : check_in_habit [⟨0, [D + 1], 1, 1⟩, A, B] 0 D
        = ([⟨0, [D + 1, D], 1, 1⟩, A, B], CheckInResult.ok true) := by
      simp [check_in_habit, locate_habit, update_habit, streak_walk, sortDates,
        insertAsc, streakGo, hne4, hnle, hle1]
    have t3 : check_in_habit [⟨0, [D + 1, D], 1, 1⟩, A, B] 0 (D + 2)
        = ([⟨0, [D + 1, D, D + 2], 3, 3⟩, A, ⟨0, [D + 1, D, D + 2], 3, 3⟩],
           CheckInResult.ok true) := by
      simp [check_in_habit, locate_habit, update_habit, streak_walk, sortDates,
        insertAsc, streakGo, hne2, hne3, hnle, hle2, hle3, hsub1, hsub2]
    rw [t1]
    simp only
    rw [t2]
    simp only
    rw [t3]
    rfl

/-- C4 (code bug): the claim (and the code's own comment
`# If we found a match, break`) says the first tier with a keyword match
determines the score, so a text with a medium-tier keyword scores 3 even
when a low-tier keyword is also present.  The code instead initialises the
score to 3 and breaks the tier loop only when the score differs from 3, so
a medium-tier match (which sets 3) never stops the scan and a low-tier
keyword still overwrites the score with 1.  `"needed but optional"`
contains the medium importance keyword `"needed"` and the low keyword
`"optional"` (and no high keyword) yet scores importance 1; likewise
`"tomorrow or later"` contains the medium urgency keyword `"tomorrow"` and
the low keyword `"later"` yet scores urgency 1. -/
theorem C4_code_bug_eval :
    importance_scan (scan_text "needed but optional" "") = 1
    ∧ urgency_scan (scan_text "tomorrow or later" "") = 1 := by decide

/-- C5 (counterexample): with the user profile absent, `suggest_time_slot`
returns immediately with the bare hour 9 and the constant 60 — it performs
no conflict-aware search (the event occupying tomorrow 9:00-10:00, minutes
1980-2040 from day 0, is ignored) and no task-based duration computation
(`estimate_task_duration` of this task is 75, not 60); the result is not a
`datetime` at all but the plain `int` 9. -/
theorem C5_counterexample :
    suggest_time_slot ⟨"x", "", none, some 5, none, none⟩ none
        [⟨some 1980, some 2040⟩] 0 0 = (SlotStart.hourOnly 9, 60)
    ∧ estimate_task_duration ⟨"x", "", none, some 5, none, none⟩ = 75 := by decide

/-- C5 (amended): when the user profile is absent (falsy), for every task,
event list and current time, `suggest_time_slot` returns the pair
`(start_hour = 9, 60)` immediately: no preferred-hour range is resolved, no
conflict search over existing events is performed, and the duration is the
constant 60 rather than `estimate_task_duration(task)`.  (The `[9,17)`
preferred-hour default instead applies when a profile is present whose
`productivity_peak` is not one of the four known values.) -/
theorem C5_amended_profile_absent (task : TaskRec) (events : List Event)
    (today hour_now : Nat) :
    suggest_time_slot task none events today hour_now = (SlotStart.hourOnly 9, 60) := rfl

/-- C6 (counterexample): `get_next_tasks` does not only read the caller's
task list: for a single incomplete task carrying no `priority_score` key,
the task record in the caller's list has gained a `priority_score` field
(`4 * 2 = 8`) after the call. -/
theorem C6_counterexample :
    (get_next_tasks [⟨"a", "", none, some 4, some 2, none⟩] 3).2
        ≠ [⟨"a", "", none, some 4, some 2, none⟩]
    ∧ (get_next_tasks [⟨"a", "", none, some 4, some 2, none⟩] 3).2
        = [⟨"a", "", none, some 4, some 2, some 8⟩] := by decide

/-- C6 (amended): `get_next_tasks` leaves every completed task's record
unchanged and changes each incomplete task's record only by writing the
`priority_score` field to `importance * urgency` (defaults 3): every other
field (title, description, completed, importance, urgency) of every entry
is preserved, and no entry is added or removed. -/
theorem C6_amended_frame (tasks : List TaskRec) (i : Nat) (t : TaskRec)
    (hget : tasks.get? i = some t) :
    ∃ t', (get_next_tasks tasks 3).2.get? i = some t'
      ∧ t'.title = t.title ∧ t'.description = t.description
      ∧ t'.completed = t.completed ∧ t'.importance = t.importance
      ∧ t'.urgency = t.urgency
      ∧ (t.completed.getD false = true → t' = t)
      ∧ (t.completed.getD false = false →
          t'.priority_score = some (t.importance.getD 3 * t.urgency.getD 3)) := by
  unfold get_next_tasks
  by_cases hemp : tasks.isEmpty
  · rw [List.isEmpty_iff] at hemp
    subst hemp
    simp at hget
  · rw [if_neg hemp]
    simp only
    refine ⟨if t.completed.getD false then t else set_priority_score t, ?_, ?_, ?_, ?_, ?_, ?_, ?_, ?_⟩
    · rw [List.get?_map, hget]
      rfl
    · split <;> simp [set_priority_score]
    · split <;> simp [set_priority_score]
    · split <;> simp [set_priority_score]
    · split <;> simp [set_priority_score]
    · split <;> simp [set_priority_score]
    · intro hc
      rw [if_pos hc]
    · intro hc
      rw [if_neg (by simp [hc])]
      simp [set_priority_score]

/-- Witness for C6 (amended) at a concrete input: a one-element task list
whose single incomplete task gains `priority_score = 8` and keeps every
other field. -/
theorem C6_amended_frame_witness :
    ([⟨"a", "", none, some 4, some 2, none⟩] : List TaskRec).get? 0
        = some ⟨"a", "", none, some 4, some 2, none⟩
    ∧ ∃ t', (get_next_tasks [⟨"a", "", none, some 4, some 2, none⟩] 3).2.get? 0 = some t'
      ∧ t'.title = (TaskRec.mk "a" "" none (some 4) (some 2) none).title
      ∧ t'.description = (TaskRec.mk "a" "" none (some 4) (some 2) none).description
      ∧ t'.completed = (TaskRec.mk "a" "" none (some 4) (some 2) none).completed
      ∧ t'.importance = (TaskRec.mk "a" "" none (some 4) (some 2) none).importance
      ∧ t'.urgency = (TaskRec.mk "a" "" none (some 4) (some 2) none).urgency
      ∧ ((TaskRec.mk "a" "" none (some 4) (some 2) none).completed.getD false = true
          → t' = TaskRec.mk "a" "" none (some 4) (some 2) none)
      ∧ ((TaskRec.mk "a" "" none (some 4) (some 2) none).completed.getD false = false
          → t'.priority_score
            = some ((TaskRec.mk "a" "" none (some 4) (some 2) none).importance.getD 3
              * (TaskRec.mk "a" "" none (some 4) (some 2) none).urgency.getD 3)) :=
  ⟨rfl, C6_amended_frame [⟨"a", "", none, some 4, some 2, none⟩] 0
    ⟨"a", "", none, some 4, some 2, none⟩ rfl⟩

/-- Membership in an `insertDesc` result. -/
theorem mem_insertDesc (key : TaskRec → Nat) (x : TaskRec) :
    ∀ (l : List TaskRec) (a : TaskRec), a ∈ insertDesc key x l ↔ a = x ∨ a ∈ l := by
  intro l
  induction l with
  | nil => intro a; simp [insertDesc]
  | cons y ys ih =>
    intro a
    rw [insertDesc]
    split
    · exact List.mem_cons
    · simp only [List.mem_cons, ih a]
      tauto

/-- Inserting with `insertDesc` grows the length by one. -/
theorem length_insertDesc (key : TaskRec → Nat) (x : TaskRec) :
    ∀ l : List TaskRec, (insertDesc key x l).length = l.length + 1 := by
  intro l
  induction l with
  | nil => rfl
  | cons y ys ih =>
    rw [insertDesc]
    split
    · rfl
    · simp [ih]

/-- Unfolding `sortByKeyDesc` on a cons. -/
theorem sortByKeyDesc_cons (key : TaskRec → Nat) (x : TaskRec) (l : List TaskRec) :
    sortByKeyDesc key (x :: l) = insertDesc key x (sortByKeyDesc key l) := rfl

/-- Sorting with `sortByKeyDesc` preserves membership. -/
theorem mem_sortByKeyDesc (key : TaskRec → Nat) :
    ∀ (l : List TaskRec) (a : TaskRec), a ∈ sortByKeyDesc key l ↔ a ∈ l := by
  intro l
  induction l with
  | nil => intro a; simp [sortByKeyDesc]
  | cons y ys ih =>
    intro a
    rw [sortByKeyDesc_cons, mem_insertDesc, ih]
    simp [List.mem_cons]

/-- Sorting with `sortByKeyDesc` preserves length. -/
theorem length_sortByKeyDesc (key : TaskRec → Nat) :
    ∀ l : List TaskRec, (sortByKeyDesc key l).length = l.length := by
  intro l
  induction l with
  | nil => rfl
  | cons y ys ih =>
    rw [sortByKeyDesc_cons, length_insertDesc, ih]
    rfl

/-- Inserting with `insertDesc` preserves the descending-by-key pairwise order. -/
theorem pairwise_insertDesc (key : TaskRec → Nat) (x : TaskRec) :
    ∀ l : List TaskRec, l.Pairwise (fun a b => key b ≤ key a) →
      (insertDesc key x l).Pairwise (fun a b => key b ≤ key a) := by
  intro l
  induction l with
  | nil => intro _; simp [insertDesc]
  | cons y ys ih =>
    intro hp
    rw [List.pairwise_cons] at hp
    obtain ⟨hy, hys⟩ := hp
    rw [insertDesc]
    split
    next hxy =>
      refine List.pairwise_cons.mpr ⟨?_, List.pairwise_cons.mpr ⟨hy, hys⟩⟩
      intro b hb
      rcases List.mem_cons.mp hb with rfl | hb'
      · exact hxy
      · exact Nat.le_trans (hy b hb') hxy
    next hxy =>
      refine List.pairwise_cons.mpr ⟨?_, ih hys⟩
      intro b hb
      rcases (mem_insertDesc key x ys b).mp hb with rfl | hb'
      · omega
      · exact hy b hb'

/-- The output of `sortByKeyDesc` is sorted descending by key. -/
theorem pairwise_sortByKeyDesc (key : TaskRec → Nat) :
    ∀ l : List TaskRec, (sortByKeyDesc key l).Pairwise (fun a b => key b ≤ key a) := by
  intro l
  induction l with
  | nil => simp [sortByKeyDesc]
  | cons y ys ih =>
    rw [sortByKeyDesc_cons]
    exact pairwise_insertDesc key y (sortByKeyDesc key ys) ih

/-- C10 (confirmed): `get_next_tasks(tasks, 3)` returns no task marked
completed, returns at most `min(3, number of incomplete tasks)` tasks, and
returns them sorted in descending order of `importance * urgency` (missing
importance or urgency defaulting to 3). -/
theorem C10_rank_properties (tasks : List TaskRec) :
    (∀ t ∈ (get_next_tasks tasks 3).1, t.completed ≠ some true)
    ∧ (get_next_tasks tasks 3).1.length
        ≤ min 3 (tasks.filter (fun t => ! t.completed.getD false)).length
    ∧ (get_next_tasks tasks 3).1.Pairwise
        (fun a b => b.importance.getD 3 * b.urgency.getD 3
          ≤ a.importance.getD 3 * a.urgency.getD 3) := by
  unfold get_next_tasks
  by_cases hemp : tasks.isEmpty
  · rw [if_pos hemp]
    simp
  · rw [if_neg hemp]
    simp only
    have hscored : ∀ t ∈ (tasks.filter (fun t => ! t.completed.getD false)).map
        set_priority_score,
        t.priority_score.getD 0 = t.importance.getD 3 * t.urgency.getD 3
          ∧ t.completed ≠ some true := by
      intro t ht
      rcases List.mem_map.mp ht with ⟨s, hs, rfl⟩
      have hf := (List.mem_filter.mp hs).2
      have hcomp : s.completed.getD false = false := by simpa using hf
      constructor
      · simp [set_priority_score]
      · intro hcon
        have : s.completed = some true := by
          simpa [set_priority_score] using hcon
        rw [this] at hcomp
        simp at hcomp
    refine ⟨?_, ?_, ?_⟩
    · intro t ht
      have h1 : t ∈ sortByKeyDesc (fun t => t.priority_score.getD 0)
          ((tasks.filter (fun t => ! t.completed.getD false)).map set_priority_score) :=
        List.mem_of_mem_take ht
      have h2 := (mem_sortByKeyDesc _ _ t).mp h1
      exact (hscored t h2).2
    · rw [List.length_take, length_sortByKeyDesc, List.length_map]
    · have hp := pairwise_sortByKeyDesc (fun t => t.priority_score.getD 0)
        ((tasks.filter (fun t => ! t.completed.getD false)).map set_priority_score)
      have htake := hp.sublist (List.take_sublist 3 _)
      refine List.Pairwise.imp_of_mem ?_ htake
      intro a b ha hb hR
      have ha' := (hscored a ((mem_sortByKeyDesc _ _ a).mp (List.mem_of_mem_take ha))).1
      have hb' := (hscored b ((mem_sortByKeyDesc _ _ b).mp (List.mem_of_mem_take hb))).1
      rw [ha', hb'] at hR
      exact hR

/-- The function `List.find?` returns the first element satisfying the predicate: there
is a witness index before which every element fails the predicate. -/
theorem find?_first_index {α : Type} (p : α → Bool) :
    ∀ (l : List α) (a : α), l.find? p = some a →
      ∃ i, l.get? i = some a ∧ p a = true
        ∧ ∀ k b, k < i → l.get? k = some b → p b = false := by
  intro l
  induction l with
  | nil => intro a h; simp at h
  | cons x t ih =>
    intro a h
    by_cases hx : p x = true
    · rw [List.find?_cons_of_pos t hx] at h
      injection h with h
      subst h
      refine ⟨0, rfl, hx, ?_⟩
      intro k b hk _
      omega
    · rw [List.find?_cons_of_neg t hx] at h
      rcases ih a h with ⟨i, hget, hpa, hmin⟩
      refine ⟨i + 1, hget, hpa, ?_⟩
      intro k b hk hb
      cases k with
      | zero =>
        have hbx : b = x := by
          simpa using hb.symm
        subst hbx
        simpa using hx
      | succ m =>
        exact hmin m b (by omega) (by simpa using hb)

/-- The nested 7-day/hours loop of `suggest_time_slot` equals a single
first-match search over the flattened candidate list (days in order, hours
in order within each day). -/
theorem find_slot_eq_candidates (periods : List (Nat × Nat)) (pref : List Nat) :
    ∀ (n date : Nat),
      find_slot periods pref date n
        = (slot_candidates pref date n).find?
            (fun t => ! slot_conflicts periods t (t + 60)) := by
  intro n
  induction n with
  | zero => intro date; rfl
  | succ m ih =>
    intro date
    have hcomp : ((fun t => ! slot_conflicts periods t (t + 60)) ∘ (slot_start date))
        = fun h => ! slot_conflicts periods (slot_start date h) (slot_start date h + 60) :=
      rfl
    rw [find_slot, slot_candidates, List.find?_append, List.find?_map, hcomp]
    cases hf : pref.find?
        (fun h => ! slot_conflicts periods (slot_start date h) (slot_start date h + 60)) with
    | some h => simp
    | none => simp [ih (date + 1)]

/-- C9 (confirmed): with a (non-falsy) profile and a non-empty event list,
`suggest_time_slot` returns a 60-minute slot whose start is either (a) the
first candidate — scanning the 7 days starting tomorrow in order, and the
preferred hours in order within each day — that does not conflict with any
validly-parsed event under the half-open overlap test, or (b) when every
candidate conflicts, tomorrow at the first preferred hour. -/
theorem C9_slot_search (task : TaskRec) (p : UserProfile) (events : List Event)
    (today hour_now : Nat) (hev : events ≠ []) :
    first_free_or_fallback (events.filterMap event_period)
      (slot_candidates (peak_hours_for (p.productivity_peak.getD "Morning")) (today + 1) 7)
      (slot_start (today + 1)
        ((peak_hours_for (p.productivity_peak.getD "Morning")).headD 0))
      (suggest_time_slot task (some p) events today hour_now) := by
  have hemp : events.isEmpty = false := List.isEmpty_eq_false.mpr hev
  simp only [suggest_time_slot, hemp, Bool.false_eq_true, if_false]
  rw [find_slot_eq_candidates]
  simp only [first_free_or_fallback]
  cases hf : (slot_candidates (peak_hours_for (p.productivity_peak.getD "Morning"))
      (today + 1) 7).find?
      (fun t => ! slot_conflicts (events.filterMap event_period) t (t + 60)) with
  | some t =>
    rcases find?_first_index _ _ t hf with ⟨i, hget, hpt, hmin⟩
    left
    refine ⟨i, t, hget, ?_, ?_, rfl⟩
    · simpa using hpt
    · intro k u hk hu
      have := hmin k u hk hu
      simpa using this
  | none =>
    right
    constructor
    · intro t ht
      have := List.find?_eq_none.mp hf t ht
      simpa using this
    · rfl

/-- Witness for C9 at a concrete input: profile `Morning`, one event far in
the past; the very first candidate (tomorrow 8:00, minute 1920) is free. -/
theorem C9_slot_search_witness :
    ([⟨some 0, some 1⟩] : List Event) ≠ []
    ∧ first_free_or_fallback
        (([⟨some 0, some 1⟩] : List Event).filterMap event_period)
        (slot_candidates
          (peak_hours_for ((UserProfile.mk (some "Morning")).productivity_peak.getD "Morning"))
          (0 + 1) 7)
        (slot_start (0 + 1)
          ((peak_hours_for
            ((UserProfile.mk (some "Morning")).productivity_peak.getD "Morning")).headD 0))
        (suggest_time_slot ⟨"x", "", none, none, none, none⟩ (some ⟨some "Morning"⟩)
          [⟨some 0, some 1⟩] 0 0) :=
  ⟨by decide, C9_slot_search ⟨"x", "", none, none, none, none⟩ ⟨some "Morning"⟩
    [⟨some 0, some 1⟩] 0 0 (by decide)⟩

